import Mathlib

/-!
Shallow embedding of the block-lag monitor tools
(`src/tools/block-lag-monitor/blocklag_monitor.py` and
`src/tools/block-lag-monitor/blocklag_monitor_avax.py`).

Python floats (wall-clock timestamps, elapsed seconds) are modelled as `ℚ`;
Python ints as `ℤ`/`ℕ`.  Each per-endpoint entry of the aggregator's
dictionaries is modelled as one record: `update` for a given endpoint reads
and writes only that endpoint's entries, so per-endpoint state evolves
independently of every other endpoint.
-/

/-- Python `int(x)` truncation toward zero of a real number
(`int(t1)` in both `poll_latest_block` functions). -/
def pyIntTrunc (q : ℚ) : ℤ := if 0 ≤ q then ⌊q⌋ else ⌈q⌉

/-- Python slice `xs[-k:]` for a non-negative `k`: the last `k` elements,
the whole list when `k = 0` (since `xs[-0:] = xs[0:] = xs`) or `k ≥ len(xs)`. -/
def pyLastSlice {α : Type} (xs : List α) (k : ℕ) : List α :=
  if k = 0 then xs else xs.drop (xs.length - k)

/-- The history bound applied after each append in both `update` methods:
`if len(h) > 10_000: h = h[-10_000:]`. -/
def boundHist {α : Type} (h : List α) : List α :=
  if h.length > 10000 then h.drop (h.length - 10000) else h

/-- Result of `estimate_sync_time` in either monitor: Python's
`Union[str, float]`, where the float is a finite ETA except for the
(dead) `float("inf")` branch in the avax variant. -/
inductive EtaResult where
  | msg (s : String)
  | eta (v : ℚ)
  | infinite
deriving DecidableEq

namespace LatencyMonitor

/-- Per-endpoint slice of `LatencyMonitor.__init__`'s dictionaries in
`blocklag_monitor.py`.  History entries are
`(timestamp_of_sample, lag_seconds, block_number)`. -/
structure State where
  total_elapsed : ℚ
  total_requests : ℕ
  total_lag_seconds : ℚ
  total_blocks : ℕ
  lag_history : List (ℚ × ℤ × ℕ)
  last_block_number : ℕ
deriving DecidableEq

/-- State of an endpoint never recorded: every dictionary lookup misses
(`setdefault`/`get` supply the zero defaults). -/
def State.init : State := ⟨0, 0, 0, 0, [], 0⟩

/-- `LatencyMonitor.update` (blocklag_monitor.py lines 331–353) for one
endpoint: bump the four running totals, append the sample to the history,
rebind the history to its last 10 000 entries when it exceeds 10 000. -/
def update (s : State) (sample_ts : ℚ) (elapsed : ℚ) (lag_seconds : ℤ)
    (block_number : ℕ) : State :=
  { total_elapsed := s.total_elapsed + elapsed
    total_requests := s.total_requests + 1
    total_lag_seconds := s.total_lag_seconds + (lag_seconds : ℚ)
    total_blocks := s.total_blocks + 1
    lag_history := boundHist (s.lag_history ++ [(sample_ts, lag_seconds, block_number)])
    last_block_number := block_number }

/-- Arguments of one `update` call. -/
structure Call where
  sample_ts : ℚ
  elapsed : ℚ
  lag_seconds : ℤ
  block_number : ℕ
deriving DecidableEq

/-- The history triple a call appends. -/
def Call.sample (c : Call) : ℚ × ℤ × ℕ := (c.sample_ts, c.lag_seconds, c.block_number)

/-- Run a sequence of `update` calls for one endpoint, starting from the
never-recorded state. -/
def runUpdates (l : List Call) : State :=
  l.foldl (fun s c => update s c.sample_ts c.elapsed c.lag_seconds c.block_number) State.init

/-- `LatencyMonitor.avg_latency_ms` (lines 355–359): 0 when
`total_requests.get(endpoint)` is falsy, otherwise the running mean in ms. -/
def avg_latency_ms (s : State) : ℚ :=
  if s.total_requests = 0 then 0
  else s.total_elapsed / (s.total_requests : ℚ) * 1000

end LatencyMonitor

namespace AvaxMonitor

/-- Per-endpoint slice of `AvaxMonitor.__init__`'s dictionaries in
`blocklag_monitor_avax.py`.  History entries are `(sample_ts, lag)`. -/
structure State where
  total_elapsed : ℚ
  total_requests : ℕ
  total_lag : ℚ
  total_blocks : ℕ
  lag_history : List (ℚ × ℤ)
  latest_block : ℕ
deriving DecidableEq

/-- State of an endpoint never recorded. -/
def State.init : State := ⟨0, 0, 0, 0, [], 0⟩

/-- `AvaxMonitor.update` (blocklag_monitor_avax.py lines 379–397). -/
def update (s : State) (sample_ts : ℚ) (elapsed : ℚ) (lag : ℤ)
    (block_number : ℕ) : State :=
  { total_elapsed := s.total_elapsed + elapsed
    total_requests := s.total_requests + 1
    total_lag := s.total_lag + (lag : ℚ)
    total_blocks := s.total_blocks + 1
    lag_history := boundHist (s.lag_history ++ [(sample_ts, lag)])
    latest_block := block_number }

/-- Arguments of one avax `update` call. -/
structure Call where
  sample_ts : ℚ
  elapsed : ℚ
  lag : ℤ
  block_number : ℕ
deriving DecidableEq

/-- The history pair a call appends. -/
def Call.sample (c : Call) : ℚ × ℤ := (c.sample_ts, c.lag)

/-- Run a sequence of avax `update` calls for one endpoint. -/
def runUpdates (l : List Call) : State :=
  l.foldl (fun s c => update s c.sample_ts c.elapsed c.lag c.block_number) State.init

/-- `AvaxMonitor.avg_latency_ms` (lines 399–404). -/
def avg_latency_ms (s : State) : ℚ :=
  if s.total_requests = 0 then 0
  else s.total_elapsed / (s.total_requests : ℚ) * 1000

end AvaxMonitor

namespace LatencyMonitor

/-- The message strings returned by both estimators. -/
def msgNotEnough : String := "Not enough data"

/-- Message returned by the trend-to-zero estimator when lag is not
strictly decreasing over the window. -/
def msgNotDecreasing : String := "Block lag not decreasing"

/-- The window selection of `estimate_sync_time` (lines 382–383):
`[(t, lag) for (t, lag, _bn) in hist if now - t <= window_s]`. -/
def windowOf (hist : List (ℚ × ℤ × ℕ)) (now : ℚ) (window_s : ℤ) : List (ℚ × ℤ) :=
  hist.filterMap fun p => if now - p.1 ≤ (window_s : ℚ) then some (p.1, p.2.1) else none

/-- `LatencyMonitor.estimate_sync_time` (blocklag_monitor.py lines 367–401),
as a pure function of the history snapshot taken under the lock, the call
time `now = time.time()` and the window parameter. -/
def estimate_sync_time (hist : List (ℚ × ℤ × ℕ)) (now : ℚ) (window_s : ℤ) : EtaResult :=
  if hist.length < 3 then .msg msgNotEnough
  else
    let window := windowOf hist now window_s
    if window.length < 3 then .msg msgNotEnough
    else
      let t0 := window.headI.1
      let lag0 := window.headI.2
      let t1 := window.getLastI.1
      let lag1 := window.getLastI.2
      let dt := t1 - t0
      if dt ≤ 0 then .msg msgNotEnough
      else
        let dlag := lag0 - lag1
        if dlag ≤ 0 then .msg msgNotDecreasing
        else
          let rate := (dlag : ℚ) / dt
          if rate ≤ 0 then .msg msgNotDecreasing
          else .eta ((lag1 : ℚ) / rate)

/-- Lag recorded by `poll_latest_block` in blocklag_monitor.py (line 421):
`lag = int(t1) - int(block["timestamp"])` — no clamping. -/
def poll_lag (t1 : ℚ) (block_timestamp : ℤ) : ℤ := pyIntTrunc t1 - block_timestamp

end LatencyMonitor

namespace AvaxMonitor

/-- Message returned by the trend-to-target estimator when the current lag
is at or below the target. -/
def msgSynced : String := "SYNCED"

/-- Message returned by the trend-to-target estimator when the slope is
non-negative. -/
def msgStable : String := "Lag stable/increasing"

/-- The window selection of `AvaxMonitor.estimate_sync_time` (line 427):
`hist[-window_samples:] if len(hist) > window_samples else hist`. -/
def pointsOf (hist : List (ℚ × ℤ)) (window_samples : ℕ) : List (ℚ × ℤ) :=
  if hist.length > window_samples then pyLastSlice hist window_samples else hist

/-- `AvaxMonitor.estimate_sync_time` (blocklag_monitor_avax.py lines
413–445), as a pure function of the history snapshot and parameters. -/
def estimate_sync_time (hist : List (ℚ × ℤ)) (target_lag_s : ℤ)
    (window_samples : ℕ) : EtaResult :=
  if hist.length < 3 then .msg LatencyMonitor.msgNotEnough
  else
    let points := pointsOf hist window_samples
    let cur_lag := points.getLastI.2
    if cur_lag ≤ target_lag_s then .msg msgSynced
    else
      let t_first := points.headI.1
      let lag_first := points.headI.2
      let t_last := points.getLastI.1
      let lag_last := points.getLastI.2
      let dt := t_last - t_first
      if dt ≤ 0 then .msg LatencyMonitor.msgNotEnough
      else
        let slope := ((lag_last - lag_first : ℤ) : ℚ) / dt
        if 0 ≤ slope then .msg msgStable
        else
          let remaining := ((cur_lag - target_lag_s : ℤ) : ℚ)
          let rate := -slope
          if 0 < rate then .eta (remaining / rate) else .infinite

/-- Lag recorded by `poll_latest_block` in blocklag_monitor_avax.py
(line 470): `lag = max(0, int(t1) - block_ts)` — clamped at zero. -/
def poll_lag (t1 : ℚ) (block_ts : ℤ) : ℤ := max 0 (pyIntTrunc t1 - block_ts)

end AvaxMonitor

namespace ChainList

/-- A JSON scalar as far as `_build_chainid_to_name` inspects it:
an int, a string, or anything else (absent key, null, list, …). -/
inductive CVal where
  | vint (n : ℤ)
  | vstr (s : String)
  | vnone
deriving DecidableEq

/-- Python truthiness of a `CVal`, as used by
`item.get("name") or item.get("chain") or item.get("shortName")`. -/
def CVal.truthy : CVal → Bool
  | .vint n => n ≠ 0
  | .vstr s => s ≠ ""
  | .vnone => false

/-- One dict item of the ChainList payload, restricted to the keys
`_build_chainid_to_name` reads. -/
structure ChainItem where
  chainId : CVal
  name : CVal
  chain : CVal
  shortName : CVal
deriving DecidableEq

/-- The fetched payload as far as `_build_chainid_to_name` inspects it:
a list (whose non-dict items are `none`), a dict whose `chains`/`data`/
`result` keys may hold a list (`none` models a missing or non-list value —
the recursive call only ever happens on a list, so one level of structure
suffices), or anything else. -/
inductive Payload where
  | plist (items : List (Option ChainItem))
  | pobj (chains dat res : Option (List (Option ChainItem)))
  | pother
deriving DecidableEq

/-- Python `out[k] = v` on a dict modelled as an insertion-ordered
association list: overwrite in place if the key exists, else append. -/
def dictInsert (out : List (ℤ × String)) (k : ℤ) (v : String) : List (ℤ × String) :=
  if out.any fun kv => kv.1 = k then
    out.map fun kv => if kv.1 = k then (k, v) else kv
  else out ++ [(k, v)]

/-- Python `s.isdigit()` for the ASCII-digit strings the cache and payload
carry: non-empty and all digits (over the string's character list, which
keeps the predicate kernel-executable). -/
def pyIsDigit (s : String) : Bool := !s.data.isEmpty && s.data.all Char.isDigit

/-- Python `s.strip()`: drop leading and trailing whitespace. -/
def pyStrip (s : String) : String :=
  ⟨((s.data.dropWhile Char.isWhitespace).reverse.dropWhile Char.isWhitespace).reverse⟩

/-- Python `int(s)` for a digit string: the decimal value of its digits. -/
def pyToNat (s : String) : ℕ :=
  s.data.foldl (fun n c => n * 10 + (c.toNat - Char.toNat (Char.ofNat 48))) 0

/-- The name field selected for an item:
`item.get("name") or item.get("chain") or item.get("shortName")`. -/
def pickName (it : ChainItem) : CVal :=
  if it.name.truthy then it.name
  else if it.chain.truthy then it.chain
  else it.shortName

/-- The `(chainId, name)` entry one list item contributes, if any
(blocklag_monitor.py lines 146–154): an int chain id, or a digit-string
chain id, paired with a string name that is non-empty after stripping. -/
def itemEntry (it : ChainItem) : Option (ℤ × String) :=
  match it.chainId, pickName it with
  | .vint cid, .vstr nm => if pyStrip nm ≠ "" then some (cid, pyStrip nm) else none
  | .vstr cid, .vstr nm =>
    if pyIsDigit cid ∧ pyStrip nm ≠ "" then some ((pyToNat cid : ℕ), pyStrip nm)
    else none
  | _, _ => none

/-- The list branch of `_build_chainid_to_name`. -/
def buildFromList (items : List (Option ChainItem)) : List (ℤ × String) :=
  items.foldl
    (fun out it? =>
      match it? with
      | none => out
      | some it =>
        match itemEntry it with
        | some kv => dictInsert out kv.1 kv.2
        | none => out)
    []

/-- `_build_chainid_to_name` (blocklag_monitor.py lines 134–163, identical
in the avax file): build from a list payload; for a dict payload recurse
into the first of `chains`, `data`, `result` holding a list; else empty. -/
def build_chainid_to_name : Payload → List (ℤ × String)
  | .plist items => buildFromList items
  | .pobj chains dat res =>
    match chains with
    | some l => buildFromList l
    | none =>
      match dat with
      | some l => buildFromList l
      | none =>
        match res with
        | some l => buildFromList l
        | none => []
  | .pother => []

/-- On-disk cache file contents after JSON parsing, restricted to what
`load_chainlist_name_map` reads: the string-valued entries of the `data`
dict and the optional `fetched_at`/`ttl` numbers (validated to ints).
A missing file, unparsable JSON, or a non-dict `data` is modelled as no
cache (`Option CacheObj = none` at the call site). -/
structure CacheObj where
  dat : List (String × String)
  fetched_at : Option ℤ
  ttl : Option ℤ
deriving DecidableEq

/-- The validated cached mapping (blocklag_monitor.py lines 194–198):
keep entries whose key is a digit string and whose value is non-empty
after stripping; store `int(k) -> v.strip()`. -/
def parseCachedMap (dat : List (String × String)) : List (ℤ × String) :=
  dat.foldl
    (fun out kv =>
      if pyIsDigit kv.1 ∧ pyStrip kv.2 ≠ "" then
        dictInsert out (pyToNat kv.1 : ℕ) (pyStrip kv.2)
      else out)
    []

/-- `_fetch_json_with_retries` (lines 103–131) over an oracle giving each
attempt's outcome: try attempts `start, start+1, …`; return the first
successful payload with the number of attempts consumed, or `none` once
the attempt budget is exhausted (the Python code then re-raises the last
error into `load_chainlist_name_map`'s `except` branch). -/
def fetchTry (oracle : ℕ → Option Payload) : ℕ → ℕ → Option (Payload × ℕ)
  | _, 0 => none
  | start, n + 1 =>
    match oracle start with
    | some p => some (p, start + 1)
    | none => fetchTry oracle (start + 1) n

/-- Observable outcome of `load_chainlist_name_map`: the returned mapping
and how many network fetch attempts were performed. -/
structure ResolveResult where
  mapping : List (ℤ × String)
  fetch_attempts : ℕ
deriving DecidableEq

/-- The cached mapping read in lines 189–208: empty when the cache file is
missing or unusable, otherwise the validated `data` entries. -/
def cachedMapOf : Option CacheObj → List (ℤ × String)
  | none => []
  | some c => parseCachedMap c.dat

/-- The freshness test of lines 210–215: a non-empty validated cached map,
a present `fetched_at`, and `now - fetched_at ≤ (cache ttl or caller ttl)`. -/
def cacheFresh (cache : Option CacheObj) (nowT : ℤ) (ttl_s : ℤ) : Bool :=
  match cache with
  | none => false
  | some c =>
    match c.fetched_at with
    | none => false
    | some fa => !(parseCachedMap c.dat).isEmpty && decide (nowT - fa ≤ c.ttl.getD ttl_s)

/-- `load_chainlist_name_map` (blocklag_monitor.py lines 166–244, identical
in the avax file): return the cached map with no fetch when fresh;
otherwise fetch with `retries + 1` attempts; on success return the built
mapping (the best-effort cache write-back is an I/O side effect with no
bearing on the returned value); on total failure return the stale cached
map when `allow_stale_cache` is set and the map is non-empty, else the
empty map — never an error. -/
def load_chainlist_name_map (cache : Option CacheObj) (nowT : ℤ) (ttl_s : ℤ)
    (retries : ℕ) (allow_stale_cache : Bool) (oracle : ℕ → Option Payload) :
    ResolveResult :=
  if cacheFresh cache nowT ttl_s then ⟨cachedMapOf cache, 0⟩
  else
    match fetchTry oracle 0 (retries + 1) with
    | some pu => ⟨build_chainid_to_name pu.1, pu.2⟩
    | none =>
      if allow_stale_cache && !(cachedMapOf cache).isEmpty then ⟨cachedMapOf cache, retries + 1⟩
      else ⟨[], retries + 1⟩

end ChainList

/-- The last 10 000 elements of a list (all of it when shorter): the value
the bounded history converges to after any sequence of appends. -/
def lastCap {α : Type} (xs : List α) : List α := xs.drop (xs.length - 10000)

lemma boundHist_length_le {α : Type} (h : List α) : (boundHist h).length ≤ 10000 := by
  unfold boundHist
  split
  · simp
    omega
  · omega

lemma lastCap_append_left {α : Type} (C D : List α) (hD : 10000 ≤ D.length) :
    lastCap (C ++ D) = lastCap D := by
  unfold lastCap
  rw [List.length_append]
  have hsub : C.length + D.length - 10000 = C.length + (D.length - 10000) := by omega
  rw [hsub, List.drop_append]

lemma capFoldAux {α : Type} (xs : List α) : ∀ h : List α, h.length ≤ 10000 →
    xs.foldl (fun acc x => boundHist (acc ++ [x])) h = lastCap (h ++ xs) := by
  induction xs with
  | nil =>
    intro h hh
    simp [lastCap, Nat.sub_eq_zero_of_le hh]
  | cons x xs ih =>
    intro h hh
    rw [List.foldl_cons, ih _ (boundHist_length_le _)]
    show lastCap (boundHist (h ++ [x]) ++ xs) = lastCap (h ++ x :: xs)
    have hx : h ++ x :: xs = (h ++ [x]) ++ xs := by simp
    rw [hx]
    by_cases hc : (h ++ [x]).length > 10000
    · have hlen : (h ++ [x]).length = h.length + 1 := by simp
      have h10 : h.length = 10000 := by omega
      have hk : (h ++ [x]).length - 10000 = 1 := by omega
      unfold boundHist
      rw [if_pos hc, hk]
      have hD : 10000 ≤ ((h ++ [x]).drop 1 ++ xs).length := by
        simp
        omega
      calc lastCap ((h ++ [x]).drop 1 ++ xs)
          = lastCap ((h ++ [x]).take 1 ++ ((h ++ [x]).drop 1 ++ xs)) :=
            (lastCap_append_left _ _ hD).symm
        _ = lastCap ((h ++ [x]) ++ xs) := by
            rw [← List.append_assoc, List.take_append_drop]
    · unfold boundHist
      rw [if_neg hc]

lemma lastCap_length_le {α : Type} (xs : List α) : (lastCap xs).length ≤ 10000 := by
  simp [lastCap]
  omega

lemma lastCap_getLast? {α : Type} (xs : List α) : (lastCap xs).getLast? = xs.getLast? := by
  unfold lastCap
  rw [List.getLast?_drop]
  split
  · next hle =>
    have hz : xs.length = 0 := by omega
    rw [List.length_eq_zero.mp hz]
    rfl
  · rfl

lemma LatencyMonitor.lm_runUpdates_history (l : List LatencyMonitor.Call) :
    ∀ s : LatencyMonitor.State,
    (l.foldl (fun s c => update s c.sample_ts c.elapsed c.lag_seconds c.block_number) s).lag_history
      = (l.map Call.sample).foldl (fun h x => boundHist (h ++ [x])) s.lag_history := by
  induction l with
  | nil => intro s; rfl
  | cons c l ih =>
    intro s
    rw [List.foldl_cons, List.map_cons, List.foldl_cons, ih]
    rfl

lemma AvaxMonitor.avax_runUpdates_history (l : List AvaxMonitor.Call) :
    ∀ s : AvaxMonitor.State,
    (l.foldl (fun s c => update s c.sample_ts c.elapsed c.lag c.block_number) s).lag_history
      = (l.map Call.sample).foldl (fun h x => boundHist (h ++ [x])) s.lag_history := by
  induction l with
  | nil => intro s; rfl
  | cons c l ih =>
    intro s
    rw [List.foldl_cons, List.map_cons, List.foldl_cons, ih]
    rfl

lemma LatencyMonitor.lm_runUpdates_hist_eq (l : List LatencyMonitor.Call) :
    (runUpdates l).lag_history = lastCap (l.map Call.sample) := by
  unfold runUpdates
  rw [lm_runUpdates_history l State.init]
  have h := capFoldAux (l.map Call.sample) ([] : List (ℚ × ℤ × ℕ)) (by simp)
  simpa using h

lemma AvaxMonitor.avax_runUpdates_hist_eq (l : List AvaxMonitor.Call) :
    (runUpdates l).lag_history = lastCap (l.map Call.sample) := by
  unfold runUpdates
  rw [avax_runUpdates_history l State.init]
  have h := capFoldAux (l.map Call.sample) ([] : List (ℚ × ℤ)) (by simp)
  simpa using h

lemma LatencyMonitor.lm_runUpdates_totals (l : List LatencyMonitor.Call) :
    ∀ s : LatencyMonitor.State,
    (l.foldl (fun s c => update s c.sample_ts c.elapsed c.lag_seconds c.block_number) s).total_elapsed
        = s.total_elapsed + (l.map Call.elapsed).sum
    ∧ (l.foldl (fun s c => update s c.sample_ts c.elapsed c.lag_seconds c.block_number) s).total_requests
        = s.total_requests + l.length := by
  induction l with
  | nil => intro s; simp
  | cons c l ih =>
    intro s
    rw [List.foldl_cons]
    refine ⟨?_, ?_⟩
    · rw [(ih _).1]
      show s.total_elapsed + c.elapsed + (l.map Call.elapsed).sum = _
      rw [List.map_cons, List.sum_cons]
      ring
    · rw [(ih _).2]
      show s.total_requests + 1 + l.length = s.total_requests + (c :: l).length
      rw [List.length_cons]
      omega

lemma AvaxMonitor.avax_runUpdates_totals (l : List AvaxMonitor.Call) :
    ∀ s : AvaxMonitor.State,
    (l.foldl (fun s c => update s c.sample_ts c.elapsed c.lag c.block_number) s).total_elapsed
        = s.total_elapsed + (l.map Call.elapsed).sum
    ∧ (l.foldl (fun s c => update s c.sample_ts c.elapsed c.lag c.block_number) s).total_requests
        = s.total_requests + l.length := by
  induction l with
  | nil => intro s; simp
  | cons c l ih =>
    intro s
    rw [List.foldl_cons]
    refine ⟨?_, ?_⟩
    · rw [(ih _).1]
      show s.total_elapsed + c.elapsed + (l.map Call.elapsed).sum = _
      rw [List.map_cons, List.sum_cons]
      ring
    · rw [(ih _).2]
      show s.total_requests + 1 + l.length = s.total_requests + (c :: l).length
      rw [List.length_cons]
      omega

/-- C1: for every endpoint and every sequence of record calls,
`avg_latency_ms` equals the cumulative elapsed time divided by the
cumulative request count (reported in milliseconds, hence the factor
1000 converting the seconds-valued running total), equals 0 when no
requests have been recorded yet, and is independent of the content of the
bounded history — in particular of any truncation of it.  Stated for both
monitor variants. -/
theorem C1_average_latency (l : List LatencyMonitor.Call) (la : List AvaxMonitor.Call) :
    (LatencyMonitor.avg_latency_ms (LatencyMonitor.runUpdates l)
      = if l.length = 0 then 0
        else (l.map LatencyMonitor.Call.elapsed).sum / (l.length : ℚ) * 1000)
    ∧ (∀ (s : LatencyMonitor.State) (h : List (ℚ × ℤ × ℕ)),
        LatencyMonitor.avg_latency_ms { s with lag_history := h }
          = LatencyMonitor.avg_latency_ms s)
    ∧ (AvaxMonitor.avg_latency_ms (AvaxMonitor.runUpdates la)
      = if la.length = 0 then 0
        else (la.map AvaxMonitor.Call.elapsed).sum / (la.length : ℚ) * 1000)
    ∧ (∀ (s : AvaxMonitor.State) (h : List (ℚ × ℤ)),
        AvaxMonitor.avg_latency_ms { s with lag_history := h }
          = AvaxMonitor.avg_latency_ms s) := by
  refine ⟨?_, fun s h => rfl, ?_, fun s h => rfl⟩
  · have ht := LatencyMonitor.lm_runUpdates_totals l LatencyMonitor.State.init
    show LatencyMonitor.avg_latency_ms
        (l.foldl (fun s c =>
          LatencyMonitor.update s c.sample_ts c.elapsed c.lag_seconds c.block_number)
          LatencyMonitor.State.init) = _
    rw [LatencyMonitor.avg_latency_ms, ht.1, ht.2]
    show (if 0 + l.length = 0 then 0
      else (0 + (l.map LatencyMonitor.Call.elapsed).sum) / ((0 + l.length : ℕ) : ℚ) * 1000) = _
    simp
  · have ht := AvaxMonitor.avax_runUpdates_totals la AvaxMonitor.State.init
    show AvaxMonitor.avg_latency_ms
        (la.foldl (fun s c =>
          AvaxMonitor.update s c.sample_ts c.elapsed c.lag c.block_number)
          AvaxMonitor.State.init) = _
    rw [AvaxMonitor.avg_latency_ms, ht.1, ht.2]
    show (if 0 + la.length = 0 then 0
      else (0 + (la.map AvaxMonitor.Call.elapsed).sum) / ((0 + la.length : ℕ) : ℚ) * 1000) = _
    simp

/-- C2: for every endpoint and every sequence of record calls, in both
monitor variants, the bounded history after the run is exactly the last
10 000 of the recorded samples in order (so its length never exceeds the
cap and the oldest samples are the ones evicted, FIFO), and its final
entry is the most recently recorded sample. -/
theorem C2_history_cap_fifo (l : List LatencyMonitor.Call) (la : List AvaxMonitor.Call) :
    ((LatencyMonitor.runUpdates l).lag_history = lastCap (l.map LatencyMonitor.Call.sample)
     ∧ (LatencyMonitor.runUpdates l).lag_history.length ≤ 10000
     ∧ (LatencyMonitor.runUpdates l).lag_history.getLast?
        = (l.map LatencyMonitor.Call.sample).getLast?)
    ∧ ((AvaxMonitor.runUpdates la).lag_history = lastCap (la.map AvaxMonitor.Call.sample)
     ∧ (AvaxMonitor.runUpdates la).lag_history.length ≤ 10000
     ∧ (AvaxMonitor.runUpdates la).lag_history.getLast?
        = (la.map AvaxMonitor.Call.sample).getLast?) := by
  have hL := LatencyMonitor.lm_runUpdates_hist_eq l
  have hA := AvaxMonitor.avax_runUpdates_hist_eq la
  refine ⟨⟨hL, ?_, ?_⟩, ⟨hA, ?_, ?_⟩⟩
  · rw [hL]; exact lastCap_length_le _
  · rw [hL]; exact lastCap_getLast? _
  · rw [hA]; exact lastCap_length_le _
  · rw [hA]; exact lastCap_getLast? _

lemma boundHist_subset {α : Type} (h : List α) : boundHist h ⊆ h := by
  unfold boundHist
  split
  · exact List.drop_subset _ _
  · exact fun a ha => ha

/-- C3 counterexample: in `blocklag_monitor.py` the recorded lag is
`int(t1) - int(block["timestamp"])` with no clamping, so a block timestamp
ahead of the wall clock (t1 = 5, timestamp = 10) records the negative lag
-5 into the aggregator's history, contradicting the claimed non-negativity
for every polling worker. -/
theorem C3_counterexample :
    LatencyMonitor.poll_lag 5 10 = -5
    ∧ ¬(0 ≤ LatencyMonitor.poll_lag 5 10)
    ∧ (LatencyMonitor.update LatencyMonitor.State.init 5 1
        (LatencyMonitor.poll_lag 5 10) 7).lag_history = [(5, -5, 7)] := by
  refine ⟨by decide, by decide, ?_⟩
  show boundHist ([] ++ [((5 : ℚ), LatencyMonitor.poll_lag 5 10, (7 : ℕ))]) = _
  have h : LatencyMonitor.poll_lag 5 10 = -5 := by decide
  rw [h]
  rfl

/-- C3 amended: only the avax worker clamps the lag, recording
`max(0, int(t1) − block.timestamp)`, which is non-negative and keeps every
history entry non-negative across updates; the plain monitor's worker
records the unclamped difference `int(t1) − block.timestamp`. -/
theorem C3_amended (t1 : ℚ) (bts : ℤ) (s : AvaxMonitor.State) (ts e : ℚ) (bn : ℕ)
    (hinv : ∀ p ∈ s.lag_history, 0 ≤ p.2) :
    AvaxMonitor.poll_lag t1 bts = max 0 (pyIntTrunc t1 - bts)
    ∧ 0 ≤ AvaxMonitor.poll_lag t1 bts
    ∧ LatencyMonitor.poll_lag t1 bts = pyIntTrunc t1 - bts
    ∧ ∀ p ∈ (AvaxMonitor.update s ts e (AvaxMonitor.poll_lag t1 bts) bn).lag_history,
        0 ≤ p.2 := by
  refine ⟨rfl, le_max_left _ _, rfl, ?_⟩
  intro p hp
  have hp' := boundHist_subset _ hp
  rcases List.mem_append.mp hp' with hmem | hmem
  · exact hinv p hmem
  · rcases List.mem_singleton.mp hmem with rfl
    exact le_max_left _ _

/-- C3 amended, witness at t1 = 5, timestamp 3, starting from the empty
history. -/
theorem C3_amended_witness :
    AvaxMonitor.poll_lag 5 3 = max 0 (pyIntTrunc 5 - 3)
    ∧ 0 ≤ AvaxMonitor.poll_lag 5 3
    ∧ LatencyMonitor.poll_lag 5 3 = pyIntTrunc 5 - 3
    ∧ ∀ p ∈ (AvaxMonitor.update AvaxMonitor.State.init 5 1
        (AvaxMonitor.poll_lag 5 3) 7).lag_history, 0 ≤ p.2 :=
  C3_amended 5 3 AvaxMonitor.State.init 5 1 7
    (by intro p hp; simp [AvaxMonitor.State.init] at hp)

lemma LatencyMonitor.windowOf_length_le (hist : List (ℚ × ℤ × ℕ)) (now : ℚ) (window_s : ℤ) :
    (windowOf hist now window_s).length ≤ hist.length :=
  List.length_filterMap_le _ _

lemma LatencyMonitor.estimate_eta_of (hist : List (ℚ × ℤ × ℕ)) (now : ℚ) (window_s : ℤ)
    (h3 : 3 ≤ (windowOf hist now window_s).length)
    (hdec : (windowOf hist now window_s).getLastI.2 < (windowOf hist now window_s).headI.2)
    (hdt : (windowOf hist now window_s).headI.1 < (windowOf hist now window_s).getLastI.1) :
    estimate_sync_time hist now window_s
      = .eta (((windowOf hist now window_s).getLastI.2 : ℚ)
          / ((((windowOf hist now window_s).headI.2
                - (windowOf hist now window_s).getLastI.2 : ℤ) : ℚ)
              / ((windowOf hist now window_s).getLastI.1
                  - (windowOf hist now window_s).headI.1))) := by
  have hh : ¬ hist.length < 3 :=
    not_lt.mpr (le_trans h3 (windowOf_length_le hist now window_s))
  have hw : ¬ (windowOf hist now window_s).length < 3 := not_lt.mpr h3
  have hdt0 : ¬ ((windowOf hist now window_s).getLastI.1
      - (windowOf hist now window_s).headI.1 ≤ 0) :=
    not_le.mpr (sub_pos.mpr hdt)
  have hdl0 : ¬ ((windowOf hist now window_s).headI.2
      - (windowOf hist now window_s).getLastI.2 ≤ 0) :=
    not_le.mpr (sub_pos.mpr hdec)
  have hrate : ¬ ((((windowOf hist now window_s).headI.2
      - (windowOf hist now window_s).getLastI.2 : ℤ) : ℚ)
      / ((windowOf hist now window_s).getLastI.1
          - (windowOf hist now window_s).headI.1) ≤ 0) := by
    refine not_le.mpr (div_pos ?_ (sub_pos.mpr hdt))
    exact_mod_cast sub_pos.mpr hdec
  simp only [estimate_sync_time, if_neg hh, if_neg hw, if_neg hdt0, if_neg hdl0, if_neg hrate]

lemma LatencyMonitor.estimate_msg_window_short (hist : List (ℚ × ℤ × ℕ)) (now : ℚ)
    (window_s : ℤ) (h : (windowOf hist now window_s).length < 3) :
    estimate_sync_time hist now window_s = .msg msgNotEnough := by
  simp only [estimate_sync_time]
  by_cases h1 : hist.length < 3
  · rw [if_pos h1]
  · rw [if_neg h1, if_pos h]

lemma LatencyMonitor.estimate_msg_dt_nonpos (hist : List (ℚ × ℤ × ℕ)) (now : ℚ)
    (window_s : ℤ) (h3 : 3 ≤ (windowOf hist now window_s).length)
    (h : (windowOf hist now window_s).getLastI.1
        - (windowOf hist now window_s).headI.1 ≤ 0) :
    estimate_sync_time hist now window_s = .msg msgNotEnough := by
  have hh : ¬ hist.length < 3 :=
    not_lt.mpr (le_trans h3 (windowOf_length_le hist now window_s))
  simp only [estimate_sync_time]
  rw [if_neg hh, if_neg (not_lt.mpr h3), if_pos h]

lemma LatencyMonitor.estimate_msg_not_decreasing (hist : List (ℚ × ℤ × ℕ)) (now : ℚ)
    (window_s : ℤ) (h3 : 3 ≤ (windowOf hist now window_s).length)
    (hdt : 0 < (windowOf hist now window_s).getLastI.1
        - (windowOf hist now window_s).headI.1)
    (h : (windowOf hist now window_s).headI.2
        - (windowOf hist now window_s).getLastI.2 ≤ 0) :
    estimate_sync_time hist now window_s = .msg msgNotDecreasing := by
  have hh : ¬ hist.length < 3 :=
    not_lt.mpr (le_trans h3 (windowOf_length_le hist now window_s))
  simp only [estimate_sync_time]
  rw [if_neg hh, if_neg (not_lt.mpr h3), if_neg (not_le.mpr hdt), if_pos h]

/-- C4 counterexample: a two-sample history whose lag strictly decreases
(100 to 50) over a strictly positive elapsed window (10 s) still yields the
qualitative status, not a numeric ETA, because fewer than 3 windowed
samples short-circuit the estimator — so the claimed equivalence fails. -/
theorem C4_counterexample :
    LatencyMonitor.estimate_sync_time [((0 : ℚ), (100 : ℤ), (1 : ℕ)), (10, 50, 2)] 10 30
      = .msg LatencyMonitor.msgNotEnough
    ∧ (LatencyMonitor.windowOf [((0 : ℚ), (100 : ℤ), (1 : ℕ)), (10, 50, 2)] 10 30).getLastI.2
        < (LatencyMonitor.windowOf [((0 : ℚ), (100 : ℤ), (1 : ℕ)), (10, 50, 2)] 10 30).headI.2
    ∧ (LatencyMonitor.windowOf [((0 : ℚ), (100 : ℤ), (1 : ℕ)), (10, 50, 2)] 10 30).headI.1
        < (LatencyMonitor.windowOf [((0 : ℚ), (100 : ℤ), (1 : ℕ)), (10, 50, 2)] 10 30).getLastI.1 := by
  have hw : LatencyMonitor.windowOf [((0 : ℚ), (100 : ℤ), (1 : ℕ)), (10, 50, 2)] 10 30
      = [((0 : ℚ), (100 : ℤ)), (10, 50)] := by
    norm_num [LatencyMonitor.windowOf, List.filterMap_cons]
  refine ⟨rfl, ?_, ?_⟩
  · rw [hw]
    show (50 : ℤ) < 100
    decide
  · rw [hw]
    show (0 : ℚ) < 10
    norm_num

/-- C4 amended: the trend-to-zero estimator returns a numeric ETA if and
only if the window holds at least 3 samples, the lag strictly decreased
over it (first windowed lag strictly greater than last) and the elapsed
window time is strictly positive; in every other case it returns a
qualitative status. -/
theorem C4_amended (hist : List (ℚ × ℤ × ℕ)) (now : ℚ) (window_s : ℤ) :
    (∃ v, LatencyMonitor.estimate_sync_time hist now window_s = .eta v)
      ↔ (3 ≤ (LatencyMonitor.windowOf hist now window_s).length
         ∧ (LatencyMonitor.windowOf hist now window_s).getLastI.2
             < (LatencyMonitor.windowOf hist now window_s).headI.2
         ∧ (LatencyMonitor.windowOf hist now window_s).headI.1
             < (LatencyMonitor.windowOf hist now window_s).getLastI.1) := by
  constructor
  · rintro ⟨v, hv⟩
    have hlen : 3 ≤ (LatencyMonitor.windowOf hist now window_s).length := by
      by_contra hc
      rw [LatencyMonitor.estimate_msg_window_short hist now window_s (not_le.mp hc)] at hv
      simp at hv
    have hdtpos : (LatencyMonitor.windowOf hist now window_s).headI.1
        < (LatencyMonitor.windowOf hist now window_s).getLastI.1 := by
      by_contra hc
      rw [LatencyMonitor.estimate_msg_dt_nonpos hist now window_s hlen
        (sub_nonpos.mpr (not_lt.mp hc))] at hv
      simp at hv
    have hdec : (LatencyMonitor.windowOf hist now window_s).getLastI.2
        < (LatencyMonitor.windowOf hist now window_s).headI.2 := by
      by_contra hc
      rw [LatencyMonitor.estimate_msg_not_decreasing hist now window_s hlen
        (sub_pos.mpr hdtpos) (sub_nonpos.mpr (not_lt.mp hc))] at hv
      simp at hv
    exact ⟨hlen, hdec, hdtpos⟩
  · rintro ⟨h3, hdec, hdt⟩
    exact ⟨_, LatencyMonitor.estimate_eta_of hist now window_s h3 hdec hdt⟩

/-- C5: whenever the window holds at least 3 samples, its first pair is
(t_first, lag_first) and last pair (t_last, lag_last) with
lag_first > lag_last and t_last > t_first, the trend-to-zero estimator
returns exactly lag_last / ((lag_first − lag_last) / (t_last − t_first)). -/
theorem C5_eta_formula (hist : List (ℚ × ℤ × ℕ)) (now : ℚ) (window_s : ℤ)
    (h3 : 3 ≤ (LatencyMonitor.windowOf hist now window_s).length)
    (hdec : (LatencyMonitor.windowOf hist now window_s).getLastI.2
        < (LatencyMonitor.windowOf hist now window_s).headI.2)
    (hdt : (LatencyMonitor.windowOf hist now window_s).headI.1
        < (LatencyMonitor.windowOf hist now window_s).getLastI.1) :
    LatencyMonitor.estimate_sync_time hist now window_s
      = .eta (((LatencyMonitor.windowOf hist now window_s).getLastI.2 : ℚ)
          / ((((LatencyMonitor.windowOf hist now window_s).headI.2
                - (LatencyMonitor.windowOf hist now window_s).getLastI.2 : ℤ) : ℚ)
              / ((LatencyMonitor.windowOf hist now window_s).getLastI.1
                  - (LatencyMonitor.windowOf hist now window_s).headI.1))) :=
  LatencyMonitor.estimate_eta_of hist now window_s h3 hdec hdt

/-- C5 witness: 3 samples at lag values 100, 80, 60 spanning a 20-second
window give rate (100 − 60)/20 = 2 and ETA 60/2 = 30 seconds. -/
theorem C5_eta_formula_witness :
    LatencyMonitor.estimate_sync_time
        [((0 : ℚ), (100 : ℤ), (1 : ℕ)), (10, 80, 2), (20, 60, 3)] 20 30 = .eta 30 := by
  have hw : LatencyMonitor.windowOf
      [((0 : ℚ), (100 : ℤ), (1 : ℕ)), (10, 80, 2), (20, 60, 3)] 20 30
      = [((0 : ℚ), (100 : ℤ)), (10, 80), (20, 60)] := by
    norm_num [LatencyMonitor.windowOf, List.filterMap_cons]
  have h := C5_eta_formula
    [((0 : ℚ), (100 : ℤ), (1 : ℕ)), (10, 80, 2), (20, 60, 3)] 20 30
    (by rw [hw]; decide)
    (by rw [hw]; show (60 : ℤ) < 100; decide)
    (by rw [hw]; show (0 : ℚ) < 20; norm_num)
  rw [h, hw]
  norm_num [List.getLastI, List.headI]

/-- C6 counterexample: with 3 history samples but a window of 2 samples,
the trend-to-target estimator returns a numeric ETA (50/3) although the
windowed sample count is 2 < 3 — it does not report insufficient data. -/
theorem C6_counterexample :
    AvaxMonitor.estimate_sync_time [((0 : ℚ), (100 : ℤ)), (10, 80), (20, 50)] 0 2
      = .eta (50 / 3)
    ∧ (AvaxMonitor.pointsOf [((0 : ℚ), (100 : ℤ)), (10, 80), (20, 50)] 2).length < 3 := by
  have hp : AvaxMonitor.pointsOf [((0 : ℚ), (100 : ℤ)), (10, 80), (20, 50)] 2
      = [((10 : ℚ), (80 : ℤ)), (20, 50)] := by
    norm_num [AvaxMonitor.pointsOf, pyLastSlice, List.drop]
  constructor
  · simp only [AvaxMonitor.estimate_sync_time, hp]
    norm_num [List.getLastI, List.headI]
  · rw [hp]
    decide

/-- C6 amended: the trend-to-zero estimator reports the insufficient-data
status whenever the windowed sample count is below 3; the trend-to-target
estimator does so provided the window-size parameter is itself at least 3
(with a window parameter below 3 it can return SYNCED or a numeric ETA
despite fewer than 3 windowed samples, as the counterexample shows). -/
theorem C6_amended :
    (∀ (hist : List (ℚ × ℤ × ℕ)) (now : ℚ) (window_s : ℤ),
        (LatencyMonitor.windowOf hist now window_s).length < 3 →
        LatencyMonitor.estimate_sync_time hist now window_s
          = .msg LatencyMonitor.msgNotEnough)
    ∧ (∀ (hist : List (ℚ × ℤ)) (target_lag_s : ℤ) (window_samples : ℕ),
        3 ≤ window_samples →
        (AvaxMonitor.pointsOf hist window_samples).length < 3 →
        AvaxMonitor.estimate_sync_time hist target_lag_s window_samples
          = .msg LatencyMonitor.msgNotEnough) := by
  constructor
  · exact LatencyMonitor.estimate_msg_window_short
  · intro hist target_lag_s ws hws h
    by_cases hlen : hist.length < 3
    · simp only [AvaxMonitor.estimate_sync_time]
      rw [if_pos hlen]
    · exfalso
      have hcases : (AvaxMonitor.pointsOf hist ws).length = ws
          ∨ (AvaxMonitor.pointsOf hist ws).length = hist.length := by
        unfold AvaxMonitor.pointsOf pyLastSlice
        split_ifs with h1 h2
        · exact absurd h2 (by omega)
        · left
          rw [List.length_drop]
          omega
        · right
          rfl
      rcases hcases with hc | hc <;> omega

/-- C6 amended witness: a single-sample history reports insufficient data
under both policies. -/
theorem C6_amended_witness :
    LatencyMonitor.estimate_sync_time [((0 : ℚ), (5 : ℤ), (1 : ℕ))] 0 30
      = .msg LatencyMonitor.msgNotEnough
    ∧ AvaxMonitor.estimate_sync_time [((0 : ℚ), (5 : ℤ))] 0 5
      = .msg LatencyMonitor.msgNotEnough :=
  ⟨C6_amended.1 [((0 : ℚ), (5 : ℤ), (1 : ℕ))] 0 30 (by
      norm_num [LatencyMonitor.windowOf, List.filterMap_cons]),
   C6_amended.2 [((0 : ℚ), (5 : ℤ))] 0 5 (by decide) (by
      norm_num [AvaxMonitor.pointsOf, pyLastSlice])⟩

/-- C7 counterexample: with a single-sample history whose current lag 0 is
at or below the target 10, the trend-to-target estimator reports the
insufficient-data status, not the terminal SYNCED status — the minimum
history size is checked first. -/
theorem C7_counterexample :
    AvaxMonitor.estimate_sync_time [((0 : ℚ), (0 : ℤ))] 10 5
      = .msg LatencyMonitor.msgNotEnough
    ∧ (AvaxMonitor.pointsOf [((0 : ℚ), (0 : ℤ))] 5).getLastI.2 ≤ 10
    ∧ AvaxMonitor.estimate_sync_time [((0 : ℚ), (0 : ℤ))] 10 5
      ≠ .msg AvaxMonitor.msgSynced := by
  refine ⟨rfl, by decide, by decide⟩

/-- C7 amended: provided the history holds at least 3 samples, the
trend-to-target estimator reports SYNCED when the current (latest windowed)
lag is at or below the target; otherwise, when the elapsed window time is
non-positive it reports the insufficient-data status; when it is positive
and the slope is non-negative it reports the stable/increasing status; and
when the slope is negative it returns the numeric ETA
(current_lag − target) / (−slope). -/
theorem C7_amended (hist : List (ℚ × ℤ)) (target_lag_s : ℤ) (ws : ℕ)
    (h3 : 3 ≤ hist.length) :
    ((AvaxMonitor.pointsOf hist ws).getLastI.2 ≤ target_lag_s →
        AvaxMonitor.estimate_sync_time hist target_lag_s ws = .msg AvaxMonitor.msgSynced)
    ∧ (target_lag_s < (AvaxMonitor.pointsOf hist ws).getLastI.2 →
        (AvaxMonitor.pointsOf hist ws).getLastI.1
            - (AvaxMonitor.pointsOf hist ws).headI.1 ≤ 0 →
        AvaxMonitor.estimate_sync_time hist target_lag_s ws
          = .msg LatencyMonitor.msgNotEnough)
    ∧ (target_lag_s < (AvaxMonitor.pointsOf hist ws).getLastI.2 →
        0 < (AvaxMonitor.pointsOf hist ws).getLastI.1
            - (AvaxMonitor.pointsOf hist ws).headI.1 →
        0 ≤ (((AvaxMonitor.pointsOf hist ws).getLastI.2
              - (AvaxMonitor.pointsOf hist ws).headI.2 : ℤ) : ℚ)
            / ((AvaxMonitor.pointsOf hist ws).getLastI.1
                - (AvaxMonitor.pointsOf hist ws).headI.1) →
        AvaxMonitor.estimate_sync_time hist target_lag_s ws = .msg AvaxMonitor.msgStable)
    ∧ (target_lag_s < (AvaxMonitor.pointsOf hist ws).getLastI.2 →
        0 < (AvaxMonitor.pointsOf hist ws).getLastI.1
            - (AvaxMonitor.pointsOf hist ws).headI.1 →
        (((AvaxMonitor.pointsOf hist ws).getLastI.2
              - (AvaxMonitor.pointsOf hist ws).headI.2 : ℤ) : ℚ)
            / ((AvaxMonitor.pointsOf hist ws).getLastI.1
                - (AvaxMonitor.pointsOf hist ws).headI.1) < 0 →
        AvaxMonitor.estimate_sync_time hist target_lag_s ws
          = .eta ((((AvaxMonitor.pointsOf hist ws).getLastI.2 - target_lag_s : ℤ) : ℚ)
              / (-((((AvaxMonitor.pointsOf hist ws).getLastI.2
                    - (AvaxMonitor.pointsOf hist ws).headI.2 : ℤ) : ℚ)
                  / ((AvaxMonitor.pointsOf hist ws).getLastI.1
                      - (AvaxMonitor.pointsOf hist ws).headI.1))))) := by
  have hh : ¬ hist.length < 3 := not_lt.mpr h3
  refine ⟨?_, ?_, ?_, ?_⟩
  · intro hcur
    simp only [AvaxMonitor.estimate_sync_time]
    rw [if_neg hh, if_pos hcur]
  · intro hcur hdt
    simp only [AvaxMonitor.estimate_sync_time]
    rw [if_neg hh, if_neg (not_le.mpr hcur), if_pos hdt]
  · intro hcur hdt hslope
    simp only [AvaxMonitor.estimate_sync_time]
    rw [if_neg hh, if_neg (not_le.mpr hcur), if_neg (not_le.mpr hdt), if_pos hslope]
  · intro hcur hdt hslope
    simp only [AvaxMonitor.estimate_sync_time]
    rw [if_neg hh, if_neg (not_le.mpr hcur), if_neg (not_le.mpr hdt),
      if_neg (not_le.mpr hslope), if_pos (neg_pos.mpr hslope)]

/-- C7 amended witness: lags 100, 80, 50 over 20 s with target 20 give
current lag 50, slope −5/2 and ETA (50 − 20)/(5/2) = 12 seconds. -/
theorem C7_amended_witness :
    AvaxMonitor.estimate_sync_time [((0 : ℚ), (100 : ℤ)), (10, 80), (20, 50)] 20 10
      = .eta 12 := by
  have h := (C7_amended [((0 : ℚ), (100 : ℤ)), (10, 80), (20, 50)] 20 10 (by decide)).2.2.2
    (by decide)
    (by norm_num [AvaxMonitor.pointsOf, List.getLastI, List.headI])
    (by norm_num [AvaxMonitor.pointsOf, List.getLastI, List.headI])
  rw [h]
  norm_num [AvaxMonitor.pointsOf, List.getLastI, List.headI]

lemma ChainList.fetchTry_eq_none (oracle : ℕ → Option ChainList.Payload) :
    ∀ (n start : ℕ), (∀ i, start ≤ i → i < start + n → oracle i = none) →
    ChainList.fetchTry oracle start n = none := by
  intro n
  induction n with
  | zero => intro start h; rfl
  | succ n ih =>
    intro start h
    have hx := h start (le_refl _) (by omega)
    show (match oracle start with
      | some p => some (p, start + 1)
      | none => ChainList.fetchTry oracle (start + 1) n) = none
    rw [hx]
    exact ih (start + 1) fun i h1 h2 => h i (by omega) (by omega)

lemma ChainList.fetchTry_pos (oracle : ℕ → Option ChainList.Payload) :
    ∀ (n start : ℕ) (pu : ChainList.Payload × ℕ),
    ChainList.fetchTry oracle start n = some pu → start + 1 ≤ pu.2 := by
  intro n
  induction n with
  | zero => intro start pu h; exact absurd h (by simp [ChainList.fetchTry])
  | succ n ih =>
    intro start pu
    show (match oracle start with
      | some p => some (p, start + 1)
      | none => ChainList.fetchTry oracle (start + 1) n) = some pu → _
    cases ho : oracle start with
    | some p =>
      intro h
      have hpu : (p, start + 1) = pu := by
        simpa using h
      rw [← hpu]
    | none =>
      intro h
      have := ih (start + 1) pu h
      omega

/-- C8: whenever the on-disk cache deserializes to a non-empty mapping with
a fetch timestamp whose age `now − fetched_at` is within the effective TTL
(the cache's own recorded TTL, or the caller's configured TTL when the
cache records none), the resolver returns the cached mapping and performs
zero network fetch attempts. -/
theorem C8_fresh_cache_no_fetch (c : ChainList.CacheObj) (nowT ttl_s : ℤ)
    (retries : ℕ) (allow_stale : Bool) (oracle : ℕ → Option ChainList.Payload) (fa : ℤ)
    (hmap : ChainList.parseCachedMap c.dat ≠ [])
    (hfa : c.fetched_at = some fa)
    (hage : nowT - fa ≤ c.ttl.getD ttl_s) :
    ChainList.load_chainlist_name_map (some c) nowT ttl_s retries allow_stale oracle
      = ⟨ChainList.parseCachedMap c.dat, 0⟩ := by
  have hfresh : ChainList.cacheFresh (some c) nowT ttl_s = true := by
    show (match c.fetched_at with
      | none => false
      | some fa =>
        !(ChainList.parseCachedMap c.dat).isEmpty
          && decide (nowT - fa ≤ c.ttl.getD ttl_s)) = true
    rw [hfa]
    simp only [Bool.and_eq_true, Bool.not_eq_true', decide_eq_true_eq]
    exact ⟨List.isEmpty_eq_false.mpr hmap, hage⟩
  simp only [ChainList.load_chainlist_name_map, hfresh, if_true]
  rfl

/-- C8 witness: a cache entry `{"1": "Ethereum Mainnet"}` fetched at 100
with recorded TTL 86400, read at time 200, is returned as-is with zero
fetch attempts (the caller's configured TTL, 0 here, is not consulted). -/
theorem C8_fresh_cache_no_fetch_witness :
    ChainList.load_chainlist_name_map
        (some ⟨[("1", "Ethereum Mainnet")], some 100, some 86400⟩) 200 0 2 false
        (fun _ => none)
      = ⟨[((1 : ℤ), "Ethereum Mainnet")], 0⟩ := by
  rw [C8_fresh_cache_no_fetch ⟨[("1", "Ethereum Mainnet")], some 100, some 86400⟩
    200 0 2 false (fun _ => none) 100 (by decide) rfl (by decide)]
  decide

/-- C9: when the cache is not fresh and every fetch attempt fails, the
resolver consumes all `retries + 1` attempts and then returns the
(possibly expired) cached mapping when stale-fallback is enabled and a
cached mapping exists, and the empty mapping otherwise — by construction
of the total function, the failure is never propagated to the caller. -/
theorem C9_fetch_failure_fallback (cache : Option ChainList.CacheObj) (nowT ttl_s : ℤ)
    (retries : ℕ) (allow_stale : Bool) (oracle : ℕ → Option ChainList.Payload)
    (hstale : ChainList.cacheFresh cache nowT ttl_s = false)
    (hfail : ∀ i, i ≤ retries → oracle i = none) :
    (ChainList.load_chainlist_name_map cache nowT ttl_s retries allow_stale oracle).fetch_attempts
      = retries + 1
    ∧ (allow_stale = true → ChainList.cachedMapOf cache ≠ [] →
        (ChainList.load_chainlist_name_map cache nowT ttl_s retries allow_stale oracle).mapping
          = ChainList.cachedMapOf cache)
    ∧ (allow_stale = false ∨ ChainList.cachedMapOf cache = [] →
        (ChainList.load_chainlist_name_map cache nowT ttl_s retries allow_stale oracle).mapping
          = []) := by
  have hnone : ChainList.fetchTry oracle 0 (retries + 1) = none :=
    ChainList.fetchTry_eq_none oracle (retries + 1) 0 fun i h1 h2 => hfail i (by omega)
  simp only [ChainList.load_chainlist_name_map, hstale, Bool.false_eq_true, if_false, hnone]
  refine ⟨?_, ?_, ?_⟩
  · split_ifs <;> rfl
  · intro hs hne
    rw [if_pos]
    rw [hs, List.isEmpty_eq_false.mpr hne]
    rfl
  · intro hd
    rw [if_neg]
    rcases hd with hs | he
    · rw [hs]
      simp
    · rw [he]
      simp

/-- C9 witness: an expired cache `{"1": "Foo"}` (age 100 > ttl 10) with
stale-fallback enabled and an always-failing fetch yields the stale cached
mapping after 2 attempts (retries = 1). -/
theorem C9_fetch_failure_fallback_witness :
    (ChainList.load_chainlist_name_map (some ⟨[("1", "Foo")], some 0, some 10⟩)
        100 86400 1 true (fun _ => none)).fetch_attempts = 2
    ∧ (ChainList.load_chainlist_name_map (some ⟨[("1", "Foo")], some 0, some 10⟩)
        100 86400 1 true (fun _ => none)).mapping = [((1 : ℤ), "Foo")] := by
  have h := C9_fetch_failure_fallback (some ⟨[("1", "Foo")], some 0, some 10⟩)
    100 86400 1 true (fun _ => none) (by decide) (fun i _ => rfl)
  refine ⟨h.1, ?_⟩
  rw [h.2.1 rfl (by decide)]
  decide

/-- C10: a cache entry whose validated mapping is empty or whose fetch
timestamp is absent is treated as a miss — it is never fresh, whatever the
age bound would say — and the resolver proceeds to the network fetch,
performing at least one attempt. -/
theorem C10_invalid_cache_fetches (c : ChainList.CacheObj) (nowT ttl_s : ℤ)
    (retries : ℕ) (allow_stale : Bool) (oracle : ℕ → Option ChainList.Payload)
    (hbad : ChainList.parseCachedMap c.dat = [] ∨ c.fetched_at = none) :
    ChainList.cacheFresh (some c) nowT ttl_s = false
    ∧ 1 ≤ (ChainList.load_chainlist_name_map (some c) nowT ttl_s retries allow_stale
        oracle).fetch_attempts := by
  have hfresh : ChainList.cacheFresh (some c) nowT ttl_s = false := by
    show (match c.fetched_at with
      | none => false
      | some fa =>
        !(ChainList.parseCachedMap c.dat).isEmpty
          && decide (nowT - fa ≤ c.ttl.getD ttl_s)) = false
    rcases hbad with hb | hb
    · cases hfa : c.fetched_at with
      | none => rfl
      | some fa =>
        rw [hb]
        rfl
    · rw [hb]
  refine ⟨hfresh, ?_⟩
  simp only [ChainList.load_chainlist_name_map, hfresh, Bool.false_eq_true, if_false]
  cases hft : ChainList.fetchTry oracle 0 (retries + 1) with
  | none =>
    split_ifs <;> simp
  | some pu =>
    have hp := ChainList.fetchTry_pos oracle (retries + 1) 0 pu hft
    simpa using hp

/-- C10 witness: a cache whose only entry has the non-digit key `abc` has
an empty validated mapping; even at age 0 (within the TTL) the resolver
treats it as a miss and performs a fetch attempt. -/
theorem C10_invalid_cache_fetches_witness :
    ChainList.cacheFresh (some ⟨[("abc", "SomeChain")], some 0, some 86400⟩) 0 86400 = false
    ∧ 1 ≤ (ChainList.load_chainlist_name_map
        (some ⟨[("abc", "SomeChain")], some 0, some 86400⟩) 0 86400 2 false
        (fun _ => some .pother)).fetch_attempts :=
  C10_invalid_cache_fetches ⟨[("abc", "SomeChain")], some 0, some 86400⟩ 0 86400 2 false
    (fun _ => some .pother) (Or.inl (by decide))
